import Mathlib

set_option maxRecDepth 100000

/-!
Verification of the receipt-ingestion pipeline of n8n-receipt-processor.

The development shallowly embeds the `/receipts/ingest` handler of the final
`main.go` (plus the helpers it uses) as pure Lean functions.  Go strings are
modelled as `List Char`; the outcomes of the external capabilities the handler
consumes (file storage, `os.Stat`, the MySQL store, gosseract OCR, the Gemini
client) are supplied through an explicit `Capabilities` record, one field per
call site, so that one run of the handler is the pure function `ingest`.
-/

/-- Go strings are modelled as lists of characters. -/
abbrev GoStr := List Char

/-- The whitespace predicate of Go's `strings.TrimSpace` (`unicode.IsSpace`),
restricted to the code points relevant here: space, tab, newline, vertical
tab, form feed, carriage return, NEL and NBSP. -/
def isSpaceGo (c : Char) : Bool :=
  c == ' ' || c == '\t' || c == '\n' || c == Char.ofNat 11 ||
  c == Char.ofNat 12 || c == '\r' || c == Char.ofNat 133 || c == Char.ofNat 160

/-- Go `strings.TrimSpace`: drop whitespace from both ends. -/
def trimSpace (l : GoStr) : GoStr :=
  ((l.dropWhile isSpaceGo).reverse.dropWhile isSpaceGo).reverse

/-- Boolean list-prefix test (the check behind Go `strings.HasPrefix`). -/
def isPre : GoStr → GoStr → Bool
  | [], _ => true
  | _ :: _, [] => false
  | a :: p, b :: l => a == b && isPre p l

/-- Go `strings.TrimPrefix`. -/
def trimPre (p l : GoStr) : GoStr :=
  if isPre p l then l.drop p.length else l

/-- Boolean list-suffix test, through the reversed lists. -/
def endsWith (p l : GoStr) : Bool :=
  isPre p.reverse l.reverse

/-- Go `strings.TrimSuffix`, implemented through the reversed lists. -/
def trimSuf (p l : GoStr) : GoStr :=
  if endsWith p l then (l.reverse.drop p.length).reverse else l

/-- The bare Markdown code fence. -/
def fence : GoStr := "```".toList

/-- The `json`-tagged Markdown code fence. -/
def fenceJson : GoStr := "```json".toList

/-- The cleaning step the handler applies to the Gemini response text before
`json.Unmarshal` (main.go lines 770-774): trim space, strip a leading
"```json" fence, a leading bare fence and a trailing fence, trim space. -/
def cleanText (s : GoStr) : GoStr :=
  trimSpace (trimSuf fence (trimPre fence (trimPre fenceJson (trimSpace s))))

/-- A capability output wrapped in a leading `json`-tagged fence and a
trailing fence, the wrapping described in spec section 4.4 b. -/
def wrapJson (s : GoStr) : GoStr :=
  fenceJson ++ ('\n' :: (s ++ ('\n' :: fence)))

/-- A capability output wrapped in a leading bare fence and a trailing
fence. -/
def wrapBare (s : GoStr) : GoStr :=
  fence ++ ('\n' :: (s ++ ('\n' :: fence)))

/-! ### JSON values and a model of `json.Unmarshal` into `GeminiParsedData` -/

/-- JSON values. -/
inductive JVal
  | jnull
  | jbool (b : Bool)
  | jnum (q : ℚ)
  | jstr (s : GoStr)
  | jarr (xs : List JVal)
  | jobj (kvs : List (GoStr × JVal))

/-- JSON structural whitespace. -/
def jsonWs (c : Char) : Bool :=
  c == ' ' || c == '\t' || c == '\n' || c == '\r'

/-- Hexadecimal digit value. -/
def hexVal (c : Char) : Option Nat :=
  if '0' ≤ c ∧ c ≤ '9' then some (c.toNat - 48)
  else if 'a' ≤ c ∧ c ≤ 'f' then some (c.toNat - 87)
  else if 'A' ≤ c ∧ c ≤ 'F' then some (c.toNat - 55)
  else none

/-- Parse the body of a JSON string literal (after the opening quote),
returning the decoded characters and the remaining input.  Handles the
escape sequences of RFC 8259; raw control characters are rejected, as in
Go's decoder. -/
def parseStringBody : Nat → GoStr → Option (GoStr × GoStr)
  | 0, _ => none
  | _ + 1, [] => none
  | fuel + 1, c :: rest =>
    if c == '\"' then some ([], rest)
    else if c == '\\' then
      match rest with
      | [] => none
      | e :: rest2 =>
        if e == '\"' then (parseStringBody fuel rest2).map (fun p => ('\"' :: p.1, p.2))
        else if e == '\\' then (parseStringBody fuel rest2).map (fun p => ('\\' :: p.1, p.2))
        else if e == '/' then (parseStringBody fuel rest2).map (fun p => ('/' :: p.1, p.2))
        else if e == 'n' then (parseStringBody fuel rest2).map (fun p => ('\n' :: p.1, p.2))
        else if e == 't' then (parseStringBody fuel rest2).map (fun p => ('\t' :: p.1, p.2))
        else if e == 'r' then (parseStringBody fuel rest2).map (fun p => ('\r' :: p.1, p.2))
        else if e == 'b' then (parseStringBody fuel rest2).map (fun p => (Char.ofNat 8 :: p.1, p.2))
        else if e == 'f' then (parseStringBody fuel rest2).map (fun p => (Char.ofNat 12 :: p.1, p.2))
        else if e == 'u' then
          match rest2 with
          | h1 :: h2 :: h3 :: h4 :: rest3 =>
            match hexVal h1, hexVal h2, hexVal h3, hexVal h4 with
            | some a, some b, some c2, some d =>
              (parseStringBody fuel rest3).map
                (fun p => (Char.ofNat (a * 4096 + b * 256 + c2 * 16 + d) :: p.1, p.2))
            | _, _, _, _ => none
          | _ => none
        else none
    else if c.toNat < 32 then none
    else (parseStringBody fuel rest).map (fun p => (c :: p.1, p.2))

/-- Take a maximal run of decimal digits, returning their values and the
rest of the input. -/
def takeDigits : GoStr → (List Nat × GoStr)
  | [] => ([], [])
  | c :: rest =>
    if c.isDigit then
      let p := takeDigits rest
      ((c.toNat - 48) :: p.1, p.2)
    else ([], c :: rest)

/-- Value of a digit list read in base 10. -/
def digitsToNat (ds : List Nat) : Nat :=
  ds.foldl (fun a d => a * 10 + d) 0

/-- The rational value `±(m / 10^k) · 10^(±e)` of a decimal literal with
mantissa `m`, fraction length `k` and exponent `e`, built with one `mkRat`
over integer arithmetic. -/
def ratOfParts (neg : Bool) (m k : Nat) (eneg : Bool) (e : Nat) : ℚ :=
  let n : Int := if neg then -(m : Int) else (m : Int)
  if eneg then mkRat n (10 ^ k * 10 ^ e) else mkRat (n * 10 ^ e) (10 ^ k)

/-- Parse the digits of an explicitly signed JSON exponent part. -/
def parseSignedExp (rest : GoStr) : Option ((Bool × Nat) × GoStr) :=
  let p := match rest with
    | '+' :: r => (false, r)
    | '-' :: r => (true, r)
    | r => (false, r)
  let d := takeDigits p.2
  if d.1 = [] then none else some ((p.1, digitsToNat d.1), d.2)

/-- Parse an optional JSON exponent part. -/
def parseExpPart : GoStr → Option ((Bool × Nat) × GoStr)
  | 'e' :: rest => parseSignedExp rest
  | 'E' :: rest => parseSignedExp rest
  | rest => some ((false, 0), rest)

/-- Parse an unsigned JSON number (integer part, optional fraction, optional
exponent) with the given sign.  Leading zeros are rejected as in RFC 8259. -/
def parseUNumberWith (neg : Bool) (r0 : GoStr) : Option (ℚ × GoStr) :=
  let p1 := takeDigits r0
  if p1.1 = [] then none
  else if 1 < p1.1.length ∧ p1.1.head? = some 0 then none
  else
    match p1.2 with
    | '.' :: r =>
      let p2 := takeDigits r
      if p2.1 = [] then none
      else
        match parseExpPart p2.2 with
        | some (ep, rest) =>
          some (ratOfParts neg (digitsToNat p1.1 * 10 ^ p2.1.length + digitsToNat p2.1)
                  p2.1.length ep.1 ep.2, rest)
        | none => none
    | r1 =>
      match parseExpPart r1 with
      | some (ep, rest) => some (ratOfParts neg (digitsToNat p1.1) 0 ep.1 ep.2, rest)
      | none => none

/-- Parse a possibly negated JSON number. -/
def parseNumber (input : GoStr) : Option (JVal × GoStr) :=
  match input with
  | '-' :: r =>
    match parseUNumberWith true r with
    | some (q, rest) => some (JVal.jnum q, rest)
    | none => none
  | r =>
    match parseUNumberWith false r with
    | some (q, rest) => some (JVal.jnum q, rest)
    | none => none

mutual

/-- Fuel-indexed recursive-descent parser for one JSON value. -/
def parseVal : Nat → GoStr → Option (JVal × GoStr)
  | 0, _ => none
  | fuel + 1, input =>
    match List.dropWhile jsonWs input with
    | 'n' :: 'u' :: 'l' :: 'l' :: rest => some (JVal.jnull, rest)
    | 't' :: 'r' :: 'u' :: 'e' :: rest => some (JVal.jbool true, rest)
    | 'f' :: 'a' :: 'l' :: 's' :: 'e' :: rest => some (JVal.jbool false, rest)
    | '\"' :: rest =>
      match parseStringBody (fuel + 1) rest with
      | some (s, r) => some (JVal.jstr s, r)
      | none => none
    | '\x7b' :: rest =>
      match parseObjBody fuel rest with
      | some (kvs, r) => some (JVal.jobj kvs, r)
      | none => none
    | '[' :: rest =>
      match parseArrBody fuel rest with
      | some (xs, r) => some (JVal.jarr xs, r)
      | none => none
    | c :: rest =>
      if c == '-' || c.isDigit then parseNumber (c :: rest) else none
    | [] => none

/-- Parse the members of a JSON object (input is past the opening brace),
up to and including the closing brace. -/
def parseObjBody : Nat → GoStr → Option (List (GoStr × JVal) × GoStr)
  | 0, _ => none
  | fuel + 1, input =>
    match List.dropWhile jsonWs input with
    | '\x7d' :: rest => some ([], rest)
    | '\"' :: rest =>
      match parseStringBody (fuel + 1) rest with
      | none => none
      | some (key, r1) =>
        match List.dropWhile jsonWs r1 with
        | ':' :: r2 =>
          match parseVal fuel r2 with
          | none => none
          | some (v, r3) =>
            match List.dropWhile jsonWs r3 with
            | ',' :: r4 =>
              match List.dropWhile jsonWs r4 with
              | '\"' :: _ =>
                match parseObjBody fuel r4 with
                | some (ms, r5) => some ((key, v) :: ms, r5)
                | none => none
              | _ => none
            | '\x7d' :: r4 => some ([(key, v)], r4)
            | _ => none
        | _ => none
    | _ => none

/-- Parse the elements of a JSON array (input is past the opening bracket),
up to and including the closing bracket. -/
def parseArrBody : Nat → GoStr → Option (List JVal × GoStr)
  | 0, _ => none
  | fuel + 1, input =>
    match List.dropWhile jsonWs input with
    | ']' :: rest => some ([], rest)
    | _ =>
      match parseVal fuel input with
      | none => none
      | some (v, r1) =>
        match List.dropWhile jsonWs r1 with
        | ',' :: r2 =>
          match List.dropWhile jsonWs r2 with
          | ']' :: _ => none
          | _ =>
            match parseArrBody fuel r2 with
            | some (xs, r3) => some (v :: xs, r3)
            | none => none
        | ']' :: r2 => some ([v], r2)
        | _ => none

end

/-- `GeminiParsedData` (main.go lines 377-385): the struct the handler
unmarshals the cleaned Gemini text into.  JSON numbers are modelled as
rationals. -/
structure GeminiParsedData where
  date : GoStr
  merchantRaw : GoStr
  merchantClean : GoStr
  category : GoStr
  amount : ℚ
  currency : GoStr
  confidence : ℚ
deriving DecidableEq, Repr

/-- The zero value of `GeminiParsedData`. -/
def zeroParsed : GeminiParsedData := ⟨[], [], [], [], 0, [], 0⟩

/-- ASCII lower-casing of one character. -/
def lowerChar (c : Char) : Char :=
  if 'A' ≤ c ∧ c ≤ 'Z' then Char.ofNat (c.toNat + 32) else c

/-- Case-insensitive key match against a (lower-case) struct tag, as in
`encoding/json` field resolution. -/
def keyMatches (k tag : GoStr) : Bool :=
  k.map lowerChar == tag

/-- Apply one object member to the struct being decoded, following
`encoding/json`: a string field accepts a JSON string (null is a no-op), a
float field accepts a JSON number (null is a no-op), any type mismatch is
an error, unknown keys are ignored. -/
def applyField (d : GeminiParsedData) (k : GoStr) (v : JVal) : Option GeminiParsedData :=
  if keyMatches k ("date".toList) then
    match v with
    | JVal.jstr s => some { d with date := s }
    | JVal.jnull => some d
    | _ => none
  else if keyMatches k ("merchant_raw".toList) then
    match v with
    | JVal.jstr s => some { d with merchantRaw := s }
    | JVal.jnull => some d
    | _ => none
  else if keyMatches k ("merchant_clean".toList) then
    match v with
    | JVal.jstr s => some { d with merchantClean := s }
    | JVal.jnull => some d
    | _ => none
  else if keyMatches k ("category".toList) then
    match v with
    | JVal.jstr s => some { d with category := s }
    | JVal.jnull => some d
    | _ => none
  else if keyMatches k ("currency".toList) then
    match v with
    | JVal.jstr s => some { d with currency := s }
    | JVal.jnull => some d
    | _ => none
  else if keyMatches k ("amount".toList) then
    match v with
    | JVal.jnum q => some { d with amount := q }
    | JVal.jnull => some d
    | _ => none
  else if keyMatches k ("confidence".toList) then
    match v with
    | JVal.jnum q => some { d with confidence := q }
    | JVal.jnull => some d
    | _ => none
  else some d

/-- Decode a member list into the struct, left to right (later duplicate
keys win, as in `encoding/json`). -/
def decodeFields : GeminiParsedData → List (GoStr × JVal) → Option GeminiParsedData
  | d, [] => some d
  | d, (k, v) :: rest =>
    match applyField d k v with
    | some d2 => decodeFields d2 rest
    | none => none

/-- Decode a parsed JSON value into `GeminiParsedData`: an object decodes
field-wise, a bare `null` leaves the zero value, anything else is a type
error. -/
def decodeStruct : JVal → Option GeminiParsedData
  | JVal.jnull => some zeroParsed
  | JVal.jobj kvs => decodeFields zeroParsed kvs
  | _ => none

/-- Model of `json.Unmarshal(cleanedText, &data)`: parse exactly one JSON
value (trailing whitespace allowed, anything else is an error) and decode it
into the struct.  The fuel bound strictly dominates the recursion depth. -/
def jsonUnmarshal (s : GoStr) : Option GeminiParsedData :=
  match parseVal (2 * s.length + 8) s with
  | none => none
  | some (v, rest) => if List.dropWhile jsonWs rest = [] then decodeStruct v else none

/-! ### The date parse and the transaction row -/

/-- Leap-year test of the proleptic Gregorian calendar. -/
def isLeap (y : Nat) : Bool :=
  (y % 4 == 0 && y % 100 != 0) || y % 400 == 0

/-- Number of days of a month. -/
def daysInMonth (y m : Nat) : Nat :=
  if m = 2 then (if isLeap y then 29 else 28)
  else if m = 4 ∨ m = 6 ∨ m = 9 ∨ m = 11 then 30
  else 31

/-- Model of `time.Parse("2006-01-02", s)`: exactly the shape
YYYY-MM-DD with a calendar-valid month and day. -/
def parseDateYMD (s : GoStr) : Option (Nat × Nat × Nat) :=
  match s with
  | [y1, y2, y3, y4, '-', m1, m2, '-', d1, d2] =>
    if y1.isDigit ∧ y2.isDigit ∧ y3.isDigit ∧ y4.isDigit ∧
       m1.isDigit ∧ m2.isDigit ∧ d1.isDigit ∧ d2.isDigit then
      let y := (y1.toNat - 48) * 1000 + (y2.toNat - 48) * 100 + (y3.toNat - 48) * 10 + (y4.toNat - 48)
      let m := (m1.toNat - 48) * 10 + (m2.toNat - 48)
      let d := (d1.toNat - 48) * 10 + (d2.toNat - 48)
      if 1 ≤ m ∧ m ≤ 12 ∧ 1 ≤ d ∧ d ≤ daysInMonth y m then some (y, m, d) else none
    else none
  | _ => none

/-- One row of the `transactions` table as the handler inserts it
(main.go lines 791-803): nullable columns are `Option`s, and an `sql.Null*`
with `Valid = false` is `none`. -/
structure TransactionRow where
  date : Option (Nat × Nat × Nat)
  merchantRaw : Option GoStr
  merchantClean : Option GoStr
  category : Option GoStr
  amount : Option ℚ
  currency : Option GoStr
  confidence : Option ℚ
deriving DecidableEq, Repr

/-- The transaction row built from parsed data, mirroring the `db.Exec`
argument list: strings are NULL when empty, `amount` and `confidence` are
NULL unless strictly positive, the date is parsed only when non-empty. -/
def mkTransaction (d : GeminiParsedData) : TransactionRow :=
  { date := if d.date = [] then none else parseDateYMD d.date
    merchantRaw := if d.merchantRaw = [] then none else some d.merchantRaw
    merchantClean := if d.merchantClean = [] then none else some d.merchantClean
    category := if d.category = [] then none else some d.category
    amount := if 0 < d.amount then some d.amount else none
    currency := if d.currency = [] then none else some d.currency
    confidence := if 0 < d.confidence then some d.confidence else none }

/-! ### The ingest pipeline -/

/-- Receipt lifecycle state `needs_review`. -/
def stNeedsReview : GoStr := "needs_review".toList

/-- Receipt lifecycle state `processed`. -/
def stProcessed : GoStr := "processed".toList

/-- Stage status string `success`. -/
def statusSuccess : GoStr := "success".toList

/-- Stage status string `failed`. -/
def statusFailed : GoStr := "failed".toList

/-- Stage status string `skipped`. -/
def statusSkipped : GoStr := "skipped".toList

/-- The PDF content type. -/
def pdfCT : GoStr := "application/pdf".toList

/-- The content-type allow-list of the handler (main.go lines 642-649). -/
def allowedTypes (ct : GoStr) : Bool :=
  ct == "image/jpeg".toList || ct == "image/jpg".toList || ct == "image/png".toList ||
  ct == "image/gif".toList || ct == "image/webp".toList || ct == pdfCT

/-- Model of `filepath.Ext`: the suffix starting at the final dot of the
name, empty when the name has no dot after the last separator. -/
def fileExt (name : GoStr) : GoStr :=
  let tl := name.reverse.takeWhile (fun c => !(c == '.' || c == '/'))
  match name.reverse.drop tl.length with
  | '.' :: _ => '.' :: tl.reverse
  | _ => []

/-- The OCR stage report of the response (`ocr` sub-object). -/
structure OcrReport where
  status : GoStr
  text : GoStr
  error : GoStr
deriving DecidableEq, Repr

/-- The extraction stage report of the response (`gemini` sub-object). -/
structure GeminiReport where
  status : GoStr
  analysis : GoStr
  error : GoStr
  parsed : Option GeminiParsedData
deriving DecidableEq, Repr

/-- `GeminiResponse` of gemini.go as the ingest handler consumes it
(the token count is unused there). -/
structure GeminiResp where
  text : GoStr
  success : Bool
  error : GoStr
deriving DecidableEq, Repr

/-- One ingest request: whether `c.FormFile("file")` succeeds, the original
file name, and the declared part content type (`[]` models an absent or
empty `Content-Type` header). -/
structure IngestRequest where
  hasFile : Bool
  filename : GoStr
  contentType : GoStr

/-- Outcomes of every external call the handler makes, one field per call
site, in source order: `c.SaveFile`, `os.Stat` (with the reported size),
the receipt `INSERT`, `Result.LastInsertId`, `os.ReadFile`,
`SetImageFromBytes`, `client.Text`, `NewGeminiClient`,
`AnalyzeReceiptTextWithPrompt`, the transaction `INSERT`, and the receipt
status `UPDATE`; plus the generated UUID and formatted timestamp. -/
structure Capabilities where
  saveFileOk : Bool
  statOk : Bool
  fileSize : Int
  insertReceiptOk : Bool
  lastInsertId : Option Int
  readFileOk : Bool
  setImageOk : Bool
  ocrText : Option GoStr
  geminiClientOk : Bool
  geminiResult : Option GeminiResp
  insertTransactionOk : Bool
  updateStatusOk : Bool
  uuid : GoStr
  timestamp : GoStr

/-- The 201 response body of the handler (main.go lines 818-840).  The
constant `success: true` flag and the timestamp/path echo fields are not
modelled separately; `status` is the top-level lifecycle-state field. -/
structure IngestResponse where
  receiptId : Int
  uuid : GoStr
  originalName : GoStr
  storedName : GoStr
  fileSize : Int
  contentType : GoStr
  status : GoStr
  ocr : OcrReport
  gemini : GeminiReport
deriving DecidableEq, Repr

/-- The three response classes of the handler: 400 with a JSON error, 500
with a JSON error, and 201 with the assembled body. -/
inductive HandlerResponse
  | clientError (msg : GoStr)
  | serverError (msg : GoStr)
  | created (body : IngestResponse)
deriving DecidableEq, Repr

/-- Error message of a missing upload. -/
def msgNoFile : GoStr := "No file provided".toList

/-- Error message of a disallowed content type. -/
def msgInvalidType : GoStr := "Invalid file type. Allowed: images (jpg, png, gif, webp) and PDF".toList

/-- Error message of a failed file save. -/
def msgSaveFail : GoStr := "Failed to save file".toList

/-- Error message of a failed `os.Stat`. -/
def msgStatFail : GoStr := "Failed to get file info".toList

/-- Error message of a failed receipt insert. -/
def msgInsertFail : GoStr := "Failed to save receipt to database".toList

/-- Error message of a failed `LastInsertId`. -/
def msgIdFail : GoStr := "Failed to get receipt ID".toList

/-- Error prefix of a parse failure of the Gemini text (the source appends
the `%v` of the `json.Unmarshal` error, elided here). -/
def msgParseFail : GoStr := "Failed to parse JSON:".toList

/-- The observable outcome of one handler run: the HTTP response, whether
the file is on disk, the initial status the receipt row was inserted with
(`none` when no row was inserted), the row's status when the request ends,
the transaction row inserted (if any), and whether the OCR engine and the
extraction stage were invoked at all. -/
structure IngestOutcome where
  response : HandlerResponse
  fileStored : Bool
  receiptInserted : Option GoStr
  receiptStatus : Option GoStr
  transaction : Option TransactionRow
  ocrAttempted : Bool
  extractionAttempted : Bool
deriving DecidableEq, Repr

/-- The OCR stage (main.go lines 701-738).  The source guards the stage
with `isImage := contentType != "application/pdf" && contentType != ""`;
the first branch here is the negation of that guard.  Error strings are
modelled by their format prefix. -/
def ocrStage (ct : GoStr) (cap : Capabilities) : OcrReport :=
  if ct = pdfCT ∨ ct = [] then
    ⟨statusSkipped, [], "PDF files require separate processing".toList⟩
  else if cap.readFileOk = false then
    ⟨statusFailed, [], "Failed to read file:".toList⟩
  else if cap.setImageOk = false then
    ⟨statusFailed, [], "Failed to set image:".toList⟩
  else
    match cap.ocrText with
    | none => ⟨statusFailed, [], "Failed to extract text:".toList⟩
    | some t => ⟨statusSuccess, t, []⟩

/-- The report of the extraction stage together with its two database
effects: the transaction row it inserted (if any) and whether the receipt
status `UPDATE` was executed and succeeded. -/
structure ExtractionEffect where
  report : GeminiReport
  txInserted : Option TransactionRow
  statusUpdated : Bool
deriving DecidableEq, Repr

/-- The extraction stage (main.go lines 740-816): runs only when OCR
succeeded with non-empty text; a client-construction or capability failure
is stage status `failed`; on capability success the stage status is
`success`, the cleaned text is unmarshalled, a parse failure only sets the
stage error, and on parse success the transaction insert is attempted and,
only when it succeeds, the status update (whose own error the source
ignores). -/
def extractionStage (ocr : OcrReport) (cap : Capabilities) : ExtractionEffect :=
  if ocr.status = statusSuccess ∧ ocr.text ≠ [] then
    if cap.geminiClientOk = false then
      ⟨⟨statusFailed, [], "Failed to create client:".toList, none⟩, none, false⟩
    else
      match cap.geminiResult with
      | none => ⟨⟨statusFailed, [], "Failed to analyze:".toList, none⟩, none, false⟩
      | some resp =>
        if resp.success = false then
          ⟨⟨statusFailed, [], resp.error, none⟩, none, false⟩
        else
          match jsonUnmarshal (cleanText resp.text) with
          | none => ⟨⟨statusSuccess, resp.text, msgParseFail, none⟩, none, false⟩
          | some data =>
            if cap.insertTransactionOk = true then
              ⟨⟨statusSuccess, resp.text, [], some data⟩, some (mkTransaction data), cap.updateStatusOk⟩
            else
              ⟨⟨statusSuccess, resp.text, [], some data⟩, none, false⟩
  else
    ⟨⟨statusSkipped, [], "No OCR text available".toList, none⟩, none, false⟩

/-- The stored file name `uuid_timestamp + ext` (main.go line 661). -/
def storedName (req : IngestRequest) (cap : Capabilities) : GoStr :=
  cap.uuid ++ ('_' :: cap.timestamp) ++ fileExt req.filename

/-- The outcome of a run that passed validation, storage and registration
(the tail of the handler from main.go line 701 on): the OCR and extraction
stages run and the 201 body is assembled, with the top-level `status` field
the string literal `needs_review` of main.go line 828. -/
def createdOutcome (req : IngestRequest) (cap : Capabilities) (rid : Int) : IngestOutcome :=
  let ocr := ocrStage req.contentType cap
  let ex := extractionStage ocr cap
  ⟨HandlerResponse.created
    ⟨rid, cap.uuid, req.filename, storedName req cap, cap.fileSize, req.contentType,
     stNeedsReview, ocr, ex.report⟩,
   true, some stNeedsReview,
   some (if ex.statusUpdated = true then stProcessed else stNeedsReview),
   ex.txInserted,
   if req.contentType = pdfCT ∨ req.contentType = [] then false else true,
   if ocr.status = statusSuccess ∧ ocr.text ≠ [] then true else false⟩

/-- The `/receipts/ingest` handler (main.go lines 632-841) as one pure
function of the request and the capability outcomes. -/
def ingest (req : IngestRequest) (cap : Capabilities) : IngestOutcome :=
  if req.hasFile = false then
    ⟨HandlerResponse.clientError msgNoFile, false, none, none, none, false, false⟩
  else if req.contentType ≠ [] ∧ allowedTypes req.contentType = false then
    ⟨HandlerResponse.clientError msgInvalidType, false, none, none, none, false, false⟩
  else if cap.saveFileOk = false then
    ⟨HandlerResponse.serverError msgSaveFail, false, none, none, none, false, false⟩
  else if cap.statOk = false then
    ⟨HandlerResponse.serverError msgStatFail, true, none, none, none, false, false⟩
  else if cap.insertReceiptOk = false then
    ⟨HandlerResponse.serverError msgInsertFail, true, none, none, none, false, false⟩
  else
    match cap.lastInsertId with
    | none =>
      ⟨HandlerResponse.serverError msgIdFail, true, some stNeedsReview, some stNeedsReview,
       none, false, false⟩
    | some rid => createdOutcome req cap rid

/-- The 201 body of an outcome, `none` when the run did not reach the 201
response. -/
def respBody (o : IngestOutcome) : Option IngestResponse :=
  match o.response with
  | HandlerResponse.created b => some b
  | _ => none

/-! ### Concrete requests and capability assignments used by the claims -/

/-- A JPEG upload request. -/
def reqJpeg : IngestRequest :=
  ⟨true, "receipt.jpg".toList, "image/jpeg".toList⟩

/-- A PDF upload request. -/
def reqPdf : IngestRequest :=
  ⟨true, "receipt.pdf".toList, "application/pdf".toList⟩

/-- An upload whose part declares no content type (the header is empty). -/
def reqEmptyCT : IngestRequest :=
  ⟨true, "receipt.bin".toList, []⟩

/-- An upload declaring the disallowed content type `text/plain`. -/
def reqTextPlain : IngestRequest :=
  ⟨true, "notes.txt".toList, "text/plain".toList⟩

/-- The extraction-capability output of end-to-end scenario A of the spec. -/
def scenarioAJson : GoStr :=
  "\x7b\"date\":\"2024-01-15\",\"merchant_raw\":\"WALMART\",\"merchant_clean\":\"Walmart\",\"category\":\"groceries\",\"amount\":45.67,\"currency\":\"USD\",\"confidence\":0.9\x7d".toList

/-- The OCR text of scenario A. -/
def ocrTextA : GoStr := "WALMART\n01/15/2024\n$45.67".toList

/-- The successful Gemini response carrying the scenario-A JSON. -/
def respA : GeminiResp := ⟨scenarioAJson, true, []⟩

/-- Capability outcomes in which every external call succeeds and the
extraction capability returns the scenario-A JSON. -/
def capAllOk : Capabilities :=
  ⟨true, true, 2048, true, some 1, true, true,
   some ocrTextA,
   true, some respA, true, true,
   "u-1".toList, "20240115_120000".toList⟩

/-- Like `capAllOk` but the receipt status `UPDATE` fails (its error is
ignored by the source). -/
def capUpdateFail : Capabilities :=
  { capAllOk with updateStatusOk := false }

/-- Like `capAllOk` but `Result.LastInsertId` fails. -/
def capIdFail : Capabilities :=
  { capAllOk with lastInsertId := none }

/-- Like `capAllOk` but `os.Stat` fails after the file was saved. -/
def capStatFail : Capabilities :=
  { capAllOk with statOk := false }

/-- Like `capAllOk` but the receipt `INSERT` fails. -/
def capInsertFail : Capabilities :=
  { capAllOk with insertReceiptOk := false }

/-- A successful Gemini response whose text is not JSON. -/
def respBad : GeminiResp := ⟨"I could not find any JSON here".toList, true, []⟩

/-- Like `capAllOk` but the extraction capability returns malformed JSON. -/
def capBadJson : Capabilities :=
  { capAllOk with geminiResult := some respBad }

/-- Like `capAllOk` but the extraction capability returns a parsable object
with a negative amount and a positive confidence. -/
def capNegAmount : Capabilities :=
  { capAllOk with geminiResult := some ⟨"\x7b\"amount\":-3,\"confidence\":0.9\x7d".toList, true, []⟩ }

/-- Like `capAllOk` but every downstream stage fails: OCR engine errors,
and the transaction insert would fail too. -/
def capDownstreamFail : Capabilities :=
  { capAllOk with ocrText := none, insertTransactionOk := false }

/-- An extraction-capability output that is itself already wrapped in a
`json`-tagged fence. -/
def fencedJsonText : GoStr :=
  "```json\n\x7b\"amount\":1\x7d\n```".toList

/-- A plain JSON object string, not fenced. -/
def plainJsonText : GoStr :=
  "\x7b\"amount\":1\x7d".toList

/-- Fallback response body used by `Option.getD` extractions. -/
def dfltResponse : IngestResponse :=
  ⟨0, [], [], [], 0, [], [], ⟨[], [], []⟩, ⟨[], [], [], none⟩⟩

/-- Fallback transaction row used by `Option.getD` extractions. -/
def dfltTx : TransactionRow :=
  ⟨none, none, none, none, none, none, none⟩

/-- The 201 body of the all-success scenario-A run. -/
def bodyA : IngestResponse := (respBody (ingest reqJpeg capAllOk)).getD dfltResponse

/-- The 201 body of the PDF upload run. -/
def bodyPdf : IngestResponse := (respBody (ingest reqPdf capAllOk)).getD dfltResponse

/-- The 201 body of the negative-amount run. -/
def bodyNeg : IngestResponse := (respBody (ingest reqJpeg capNegAmount)).getD dfltResponse

/-- The parsed data of the negative-amount run. -/
def dataNeg : GeminiParsedData := bodyNeg.gemini.parsed.getD zeroParsed

/-- The transaction row of the negative-amount run. -/
def txNeg : TransactionRow := ((ingest reqJpeg capNegAmount).transaction).getD dfltTx

/-! ### Helper lemmas about the trimming primitives -/

theorem dropWhile_cons_neg {p : Char → Bool} {c : Char} (h : p c = false) (l : GoStr) :
    (c :: l).dropWhile p = c :: l := by
  simp [List.dropWhile_cons, h]

theorem dropWhile_my_idem (p : Char → Bool) (l : GoStr) :
    (l.dropWhile p).dropWhile p = l.dropWhile p := by
  induction l with
  | nil => rfl
  | cons a t ih =>
    by_cases h : p a = true
    · simp [List.dropWhile_cons, h, ih]
    · have h' : p a = false := by
        cases hpa : p a
        · rfl
        · exact absurd hpa h
      simp [List.dropWhile_cons, h']

theorem dropWhile_shape (p : Char → Bool) (l : GoStr) :
    l.dropWhile p = [] ∨ ∃ a t, l.dropWhile p = a :: t ∧ p a = false := by
  induction l with
  | nil => exact Or.inl rfl
  | cons a t ih =>
    cases hpa : p a
    · exact Or.inr ⟨a, t, by simp [List.dropWhile_cons, hpa], hpa⟩
    · simpa [List.dropWhile_cons, hpa] using ih

theorem isPre_append_self (p r : GoStr) : isPre p (p ++ r) = true := by
  induction p with
  | nil => rfl
  | cons a q ih => simp [isPre, ih]

theorem isPre_mono (p q l : GoStr) (h : isPre (p ++ q) l = true) : isPre p l = true := by
  induction p generalizing l with
  | nil => rfl
  | cons a p' ih =>
    cases l with
    | nil => exact absurd h (by simp [isPre])
    | cons b l' =>
      rw [List.cons_append, isPre] at h
      rw [isPre]
      rcases Bool.and_eq_true_iff.mp h with ⟨h1, h2⟩
      exact Bool.and_eq_true_iff.mpr ⟨h1, ih l' h2⟩

theorem trimPre_append (p r : GoStr) : trimPre p (p ++ r) = r := by
  rw [trimPre, if_pos (isPre_append_self p r), List.drop_left]

theorem trimPre_no (p l : GoStr) (h : isPre p l = false) : trimPre p l = l := by
  rw [trimPre, if_neg]
  simp [h]

theorem trimSuf_append (l p : GoStr) : trimSuf p (l ++ p) = l := by
  rw [trimSuf, endsWith, List.reverse_append, if_pos (isPre_append_self p.reverse l.reverse)]
  rw [show p.length = p.reverse.length by simp, List.drop_left, List.reverse_reverse]

theorem trimSuf_no (p l : GoStr) (h : endsWith p l = false) : trimSuf p l = l := by
  rw [trimSuf, if_neg]
  simp [h]

theorem trimSpace_cons_space {c : Char} (hc : isSpaceGo c = true) (l : GoStr) :
    trimSpace (c :: l) = trimSpace l := by
  simp [trimSpace, List.dropWhile_cons, hc]

theorem trimSpace_append_space {c : Char} (hc : isSpaceGo c = true) (l : GoStr) :
    trimSpace (l ++ [c]) = trimSpace l := by
  induction l with
  | nil => simp [trimSpace, List.dropWhile_cons, hc]
  | cons a l' ih =>
    by_cases ha : isSpaceGo a = true
    · rw [List.cons_append, trimSpace_cons_space ha, ih, trimSpace_cons_space ha]
    · have ha' : isSpaceGo a = false := by
        cases hx : isSpaceGo a
        · rfl
        · exact absurd hx ha
      rw [List.cons_append, trimSpace, trimSpace, dropWhile_cons_neg ha', dropWhile_cons_neg ha']
      rw [List.reverse_cons, List.reverse_cons, List.reverse_append]
      rw [show ([c] : GoStr).reverse = [c] from rfl]
      simp only [List.cons_append, List.nil_append, List.dropWhile_cons, hc, if_true]

theorem trimSpace_sandwich {a b : Char} (ha : isSpaceGo a = false) (hb : isSpaceGo b = false)
    (x : GoStr) : trimSpace (a :: (x ++ [b])) = a :: (x ++ [b]) := by
  rw [trimSpace, dropWhile_cons_neg ha, List.reverse_cons, List.reverse_append]
  rw [show ([b] : GoStr).reverse = [b] from rfl]
  simp only [List.cons_append, List.nil_append]
  rw [dropWhile_cons_neg hb]
  simp

theorem trimSpace_idem (l : GoStr) : trimSpace (trimSpace l) = trimSpace l := by
  rcases dropWhile_shape isSpaceGo l with hu | ⟨a, t, hu, hpa⟩
  · simp [trimSpace, hu]
  · have hv : ∃ w, (l.dropWhile isSpaceGo).reverse.dropWhile isSpaceGo = w ++ [a] := by
      rw [hu, List.reverse_cons, List.dropWhile_append]
      by_cases he : (t.reverse.dropWhile isSpaceGo).isEmpty
      · exact ⟨[], by simp [he, dropWhile_cons_neg hpa]⟩
      · exact ⟨t.reverse.dropWhile isSpaceGo, by simp [he]⟩
    obtain ⟨w, hw⟩ := hv
    have hts : trimSpace l = a :: w.reverse := by
      rw [trimSpace, hw]
      simp
    rw [hts, trimSpace, dropWhile_cons_neg hpa, List.reverse_cons, List.reverse_reverse]
    rw [← hw, dropWhile_my_idem, hw]
    rw [← hts]
    simp [hts]

theorem trimSpace_concrete_ends (u v x : GoStr)
    (hu : u.dropWhile isSpaceGo = u) (hune : u ≠ [])
    (hv : v.reverse.dropWhile isSpaceGo = v.reverse) (hvne : v ≠ []) :
    trimSpace (u ++ (x ++ v)) = u ++ (x ++ v) := by
  have hne1 : (u.dropWhile isSpaceGo).isEmpty = false := by
    rw [hu]
    exact List.isEmpty_eq_false_iff_exists_mem.mpr
      (by rcases List.exists_mem_of_ne_nil u hune with ⟨a, ha⟩; exact ⟨a, ha⟩)
  have h1 : (u ++ (x ++ v)).dropWhile isSpaceGo = u ++ (x ++ v) := by
    rw [List.dropWhile_append, hne1]
    simp [hu]
  have hne2 : (v.reverse.dropWhile isSpaceGo).isEmpty = false := by
    rw [hv]
    exact List.isEmpty_eq_false_iff_exists_mem.mpr
      (by
        rcases List.exists_mem_of_ne_nil v hvne with ⟨a, ha⟩
        exact ⟨a, List.mem_reverse.mpr ha⟩)
  have h2 : (u ++ (x ++ v)).reverse = v.reverse ++ (x.reverse ++ u.reverse) := by
    simp [List.reverse_append]
  have h3 : (v.reverse ++ (x.reverse ++ u.reverse)).dropWhile isSpaceGo =
      v.reverse ++ (x.reverse ++ u.reverse) := by
    rw [List.dropWhile_append, hne2]
    simp [hv]
  rw [trimSpace, h1, h2, h3, ← h2, List.reverse_reverse]

theorem cleanText_wrapJson (s : GoStr) : cleanText (wrapJson s) = trimSpace s := by
  have hw : wrapJson s = fenceJson ++ (('\n' :: s) ++ ('\n' :: fence)) := rfl
  have hts : trimSpace (wrapJson s) = wrapJson s := by
    rw [hw]
    exact trimSpace_concrete_ends fenceJson ('\n' :: fence) ('\n' :: s)
      (by decide) (by decide) (by decide) (by decide)
  have hp1 : trimPre fenceJson (wrapJson s) = ('\n' :: s) ++ ('\n' :: fence) := by
    rw [hw]
    exact trimPre_append fenceJson (('\n' :: s) ++ ('\n' :: fence))
  have hp2 : trimPre fence (('\n' :: s) ++ ('\n' :: fence)) = ('\n' :: s) ++ ('\n' :: fence) := by
    apply trimPre_no
    rw [show fence = '\x60' :: ('\x60' :: ['\x60']) from rfl]
    simp [isPre, show (('\x60' : Char) == '\n') = false from by decide]
  have hp3 : trimSuf fence (('\n' :: s) ++ ('\n' :: fence)) = ('\n' :: s) ++ ['\n'] := by
    rw [show (('\n' :: s) ++ ('\n' :: fence)) = ((('\n' :: s) ++ ['\n']) ++ fence) from
      (List.append_assoc ('\n' :: s) ['\n'] fence).symm]
    exact trimSuf_append (('\n' :: s) ++ ['\n']) fence
  have hp4 : trimSpace (('\n' :: s) ++ ['\n']) = trimSpace s := by
    rw [show (('\n' :: s) ++ ['\n']) = '\n' :: (s ++ ['\n']) from rfl,
        trimSpace_cons_space (by decide), trimSpace_append_space (by decide)]
  rw [cleanText, hts, hp1, hp2, hp3, hp4]

theorem cleanText_wrapBare (s : GoStr) : cleanText (wrapBare s) = trimSpace s := by
  have hw : wrapBare s = fence ++ (('\n' :: s) ++ ('\n' :: fence)) := rfl
  have hts : trimSpace (wrapBare s) = wrapBare s := by
    rw [hw]
    exact trimSpace_concrete_ends fence ('\n' :: fence) ('\n' :: s)
      (by decide) (by decide) (by decide) (by decide)
  have hp1 : trimPre fenceJson (wrapBare s) = wrapBare s := by
    apply trimPre_no
    rw [show fenceJson = '\x60' :: '\x60' :: '\x60' :: 'j' :: 's' :: 'o' :: 'n' :: [] from rfl,
        show wrapBare s = '\x60' :: '\x60' :: '\x60' :: '\n' :: (s ++ ('\n' :: fence)) from rfl]
    simp [isPre]
  have hp2 : trimPre fence (wrapBare s) = ('\n' :: s) ++ ('\n' :: fence) := by
    rw [hw]
    exact trimPre_append fence (('\n' :: s) ++ ('\n' :: fence))
  have hp3 : trimSuf fence (('\n' :: s) ++ ('\n' :: fence)) = ('\n' :: s) ++ ['\n'] := by
    rw [show (('\n' :: s) ++ ('\n' :: fence)) = ((('\n' :: s) ++ ['\n']) ++ fence) from
      (List.append_assoc ('\n' :: s) ['\n'] fence).symm]
    exact trimSuf_append (('\n' :: s) ++ ['\n']) fence
  have hp4 : trimSpace (('\n' :: s) ++ ['\n']) = trimSpace s := by
    rw [show (('\n' :: s) ++ ['\n']) = '\n' :: (s ++ ['\n']) from rfl,
        trimSpace_cons_space (by decide), trimSpace_append_space (by decide)]
  rw [cleanText, hts, hp1, hp2, hp3, hp4]

theorem cleanText_nofence (s : GoStr)
    (h1 : isPre fence (trimSpace s) = false) (h2 : endsWith fence (trimSpace s) = false) :
    cleanText s = trimSpace s := by
  have hfj : isPre fenceJson (trimSpace s) = false := by
    cases hx : isPre fenceJson (trimSpace s)
    · rfl
    · have hm := isPre_mono fence ("json".toList) (trimSpace s)
        (by rw [show fence ++ "json".toList = fenceJson from by decide]; exact hx)
      rw [h1] at hm
      exact Bool.noConfusion hm
  rw [cleanText, trimPre_no _ _ hfj, trimPre_no _ _ h1, trimSuf_no _ _ h2, trimSpace_idem]

/-! ### Helper lemmas about the pipeline -/

theorem ingest_eq_created (req : IngestRequest) (cap : Capabilities) (rid : Int)
    (hf : ¬req.hasFile = false)
    (hct : ¬(req.contentType ≠ [] ∧ allowedTypes req.contentType = false))
    (hs : ¬cap.saveFileOk = false) (hst : ¬cap.statOk = false)
    (hir : ¬cap.insertReceiptOk = false) (hid : cap.lastInsertId = some rid) :
    ingest req cap = createdOutcome req cap rid := by
  rw [ingest, if_neg hf, if_neg hct, if_neg hs, if_neg hst, if_neg hir, hid]

theorem ingest_created_inv (req : IngestRequest) (cap : Capabilities) (b : IngestResponse)
    (h : (ingest req cap).response = HandlerResponse.created b) :
    ∃ rid, cap.lastInsertId = some rid ∧ ingest req cap = createdOutcome req cap rid := by
  by_cases h1 : req.hasFile = false
  · rw [ingest, if_pos h1] at h
    exact absurd h (by simp)
  · by_cases h2 : req.contentType ≠ [] ∧ allowedTypes req.contentType = false
    · rw [ingest, if_neg h1, if_pos h2] at h
      exact absurd h (by simp)
    · by_cases h3 : cap.saveFileOk = false
      · rw [ingest, if_neg h1, if_neg h2, if_pos h3] at h
        exact absurd h (by simp)
      · by_cases h4 : cap.statOk = false
        · rw [ingest, if_neg h1, if_neg h2, if_neg h3, if_pos h4] at h
          exact absurd h (by simp)
        · by_cases h5 : cap.insertReceiptOk = false
          · rw [ingest, if_neg h1, if_neg h2, if_neg h3, if_neg h4, if_pos h5] at h
            exact absurd h (by simp)
          · cases hid : cap.lastInsertId with
            | none =>
              rw [ingest, if_neg h1, if_neg h2, if_neg h3, if_neg h4, if_neg h5, hid] at h
              exact absurd h (by simp)
            | some rid =>
              exact ⟨rid, rfl, ingest_eq_created req cap rid h1 h2 h3 h4 h5 hid⟩

theorem createdOutcome_response (req : IngestRequest) (cap : Capabilities) (rid : Int) :
    (createdOutcome req cap rid).response = HandlerResponse.created
      ⟨rid, cap.uuid, req.filename, storedName req cap, cap.fileSize, req.contentType,
       stNeedsReview, ocrStage req.contentType cap,
       (extractionStage (ocrStage req.contentType cap) cap).report⟩ := rfl

theorem extraction_parsed_tx (o : OcrReport) (cap : Capabilities) (d : GeminiParsedData)
    (tx : TransactionRow)
    (hp : (extractionStage o cap).report.parsed = some d)
    (ht : (extractionStage o cap).txInserted = some tx) : tx = mkTransaction d := by
  by_cases h1 : o.status = statusSuccess ∧ o.text ≠ []
  · by_cases h2 : cap.geminiClientOk = false
    · simp [extractionStage, h1, h2] at hp
    · cases hg : cap.geminiResult with
      | none => simp [extractionStage, h1, h2, hg] at hp
      | some resp =>
        by_cases h3 : resp.success = false
        · simp [extractionStage, h1, h2, hg, h3] at hp
        · cases hj : jsonUnmarshal (cleanText resp.text) with
          | none => simp [extractionStage, h1, h2, hg, h3, hj] at hp
          | some data =>
            by_cases h4 : cap.insertTransactionOk = true
            · simp [extractionStage, h1, h2, hg, h3, hj, h4] at hp ht
              rw [← hp, ← ht]
            · simp [extractionStage, h1, h2, hg, h3, hj, h4] at ht
  · simp [extractionStage, h1] at hp

theorem extraction_tx_iff_updated (o : OcrReport) (cap : Capabilities)
    (hup : cap.updateStatusOk = true) :
    (extractionStage o cap).txInserted.isSome = true ↔
      (extractionStage o cap).statusUpdated = true := by
  by_cases h1 : o.status = statusSuccess ∧ o.text ≠ []
  · by_cases h2 : cap.geminiClientOk = false
    · simp [extractionStage, h1, h2]
    · cases hg : cap.geminiResult with
      | none => simp [extractionStage, h1, h2, hg]
      | some resp =>
        by_cases h3 : resp.success = false
        · simp [extractionStage, h1, h2, hg, h3]
        · cases hj : jsonUnmarshal (cleanText resp.text) with
          | none => simp [extractionStage, h1, h2, hg, h3, hj]
          | some data =>
            by_cases h4 : cap.insertTransactionOk = true
            · simp [extractionStage, h1, h2, hg, h3, hj, h4, hup]
            · simp [extractionStage, h1, h2, hg, h3, hj, h4]
  · simp [extractionStage, h1]

theorem ocrStage_skipped_iff (ct : GoStr) (cap : Capabilities) :
    (ocrStage ct cap).status = statusSkipped ↔ (ct = pdfCT ∨ ct = []) := by
  by_cases h : ct = pdfCT ∨ ct = []
  · rw [ocrStage, if_pos h]
    simp [h]
  · constructor
    · intro hs
      exfalso
      by_cases h2 : cap.readFileOk = false
      · rw [ocrStage, if_neg h, if_pos h2] at hs
        exact absurd hs (by decide)
      · by_cases h3 : cap.setImageOk = false
        · rw [ocrStage, if_neg h, if_neg h2, if_pos h3] at hs
          exact absurd hs (by decide)
        · cases ho : cap.ocrText with
          | none =>
            simp [ocrStage, h, h2, h3, ho] at hs
            exact absurd hs (by decide)
          | some t =>
            simp [ocrStage, h, h2, h3, ho] at hs
            exact absurd hs (by decide)
    · intro hct
      exact absurd hct h

theorem ocrStage_failed (ct : GoStr) (cap : Capabilities)
    (h : ¬(ct = pdfCT ∨ ct = []))
    (hf : cap.readFileOk = false ∨ cap.setImageOk = false ∨ cap.ocrText = none) :
    (ocrStage ct cap).status = statusFailed := by
  rcases hf with h2 | h3 | h4
  · rw [ocrStage, if_neg h, if_pos h2]
  · by_cases h2 : cap.readFileOk = false
    · rw [ocrStage, if_neg h, if_pos h2]
    · rw [ocrStage, if_neg h, if_neg h2, if_pos h3]
  · by_cases h2 : cap.readFileOk = false
    · rw [ocrStage, if_neg h, if_pos h2]
    · by_cases h3 : cap.setImageOk = false
      · rw [ocrStage, if_neg h, if_neg h2, if_pos h3]
      · simp [ocrStage, h, h2, h3, h4]

/-! ### The claims -/

/-- C1, counterexample: in the all-success scenario-A run the receipt row
ends in state `processed`, yet the response's top-level lifecycle-state
field reads `needs_review`, so the response does not equal the receipt's
state as observed after the extraction stage. -/
theorem c1_counterexample :
    (respBody (ingest reqJpeg capAllOk)).map IngestResponse.status = some stNeedsReview ∧
    (ingest reqJpeg capAllOk).receiptStatus = some stProcessed ∧
    stNeedsReview ≠ stProcessed :=
  ⟨by decide, by decide, by decide⟩

/-- C1, amended: the top-level lifecycle-state field of every 201 response
is the literal `needs_review` (the state the receipt was registered with),
regardless of the extraction outcome. -/
theorem c1_amended (req : IngestRequest) (cap : Capabilities) (b : IngestResponse)
    (h : (ingest req cap).response = HandlerResponse.created b) :
    b.status = stNeedsReview := by
  obtain ⟨rid, hid, heq⟩ := ingest_created_inv req cap b h
  rw [heq, createdOutcome_response] at h
  injection h with hb
  rw [← hb]

/-- C1, witness: the amended statement evaluated on the scenario-A run. -/
theorem c1_witness :
    (ingest reqJpeg capAllOk).response = HandlerResponse.created bodyA ∧
    bodyA.status = stNeedsReview := by
  have h : (ingest reqJpeg capAllOk).response = HandlerResponse.created bodyA := by decide
  exact ⟨h, c1_amended reqJpeg capAllOk bodyA h⟩

/-- C2, counterexample: when the transaction insert succeeds but the
receipt-status `UPDATE` fails (the source ignores its error), the request
ends with a transaction row while the receipt is still `needs_review`. -/
theorem c2_counterexample :
    (ingest reqJpeg capUpdateFail).transaction.isSome = true ∧
    (ingest reqJpeg capUpdateFail).receiptStatus = some stNeedsReview ∧
    stNeedsReview ≠ stProcessed :=
  ⟨by decide, by decide, by decide⟩

/-- C2, amended: provided the receipt-status `UPDATE` succeeds whenever the
handler issues it, a transaction row exists after the request if and only if
the receipt's state is `processed`; in particular a receipt left in
`needs_review` (or any other state) has no transaction. -/
theorem c2_amended (req : IngestRequest) (cap : Capabilities)
    (hup : cap.updateStatusOk = true) :
    (ingest req cap).transaction.isSome = true ↔
      (ingest req cap).receiptStatus = some stProcessed := by
  by_cases h1 : req.hasFile = false
  · rw [ingest, if_pos h1]
    decide
  · by_cases h2 : req.contentType ≠ [] ∧ allowedTypes req.contentType = false
    · rw [ingest, if_neg h1, if_pos h2]
      decide
    · by_cases h3 : cap.saveFileOk = false
      · rw [ingest, if_neg h1, if_neg h2, if_pos h3]
        decide
      · by_cases h4 : cap.statOk = false
        · rw [ingest, if_neg h1, if_neg h2, if_neg h3, if_pos h4]
          decide
        · by_cases h5 : cap.insertReceiptOk = false
          · rw [ingest, if_neg h1, if_neg h2, if_neg h3, if_neg h4, if_pos h5]
            decide
          · cases hid : cap.lastInsertId with
            | none =>
              rw [ingest, if_neg h1, if_neg h2, if_neg h3, if_neg h4, if_neg h5, hid]
              simp [show stNeedsReview ≠ stProcessed from by decide]
            | some rid =>
              rw [ingest_eq_created req cap rid h1 h2 h3 h4 h5 hid]
              rw [show (createdOutcome req cap rid).transaction =
                    (extractionStage (ocrStage req.contentType cap) cap).txInserted from rfl,
                  show (createdOutcome req cap rid).receiptStatus =
                    some (if (extractionStage (ocrStage req.contentType cap) cap).statusUpdated
                            = true then stProcessed else stNeedsReview) from rfl]
              rw [extraction_tx_iff_updated _ _ hup]
              by_cases hu : (extractionStage (ocrStage req.contentType cap) cap).statusUpdated = true
              · simp [hu]
              · simp [hu, show stNeedsReview ≠ stProcessed from by decide]

/-- C2, witness: the amended statement evaluated on the scenario-A run,
where the update succeeds. -/
theorem c2_witness :
    (ingest reqJpeg capAllOk).transaction.isSome = true ↔
      (ingest reqJpeg capAllOk).receiptStatus = some stProcessed :=
  c2_amended reqJpeg capAllOk rfl

/-- C3, counterexample: a request declaring the empty content type is not
in the allow-list, yet the handler accepts it: the file is stored, a
receipt row is inserted, and the request returns 201. -/
theorem c3_counterexample :
    allowedTypes [] = false ∧
    reqEmptyCT.contentType = [] ∧
    (ingest reqEmptyCT capAllOk).fileStored = true ∧
    (ingest reqEmptyCT capAllOk).receiptInserted = some stNeedsReview ∧
    (respBody (ingest reqEmptyCT capAllOk)).isSome = true :=
  ⟨by decide, by decide, by decide, by decide, by decide⟩

/-- C3, amended: for a request carrying a file, the handler rejects with
the client error exactly when the declared content type is non-empty and
outside the allow-list (an empty/undeclared content type is accepted), and
such a rejection happens before any side effect: no file stored, no
receipt row, no transaction. -/
theorem c3_amended (req : IngestRequest) (cap : Capabilities) (hf : req.hasFile = true) :
    (((ingest req cap).response = HandlerResponse.clientError msgInvalidType) ↔
      (req.contentType ≠ [] ∧ allowedTypes req.contentType = false)) ∧
    ((ingest req cap).response = HandlerResponse.clientError msgInvalidType →
      (ingest req cap).fileStored = false ∧ (ingest req cap).receiptInserted = none ∧
      (ingest req cap).transaction = none) := by
  have h1 : ¬req.hasFile = false := by simp [hf]
  by_cases h2 : req.contentType ≠ [] ∧ allowedTypes req.contentType = false
  · rw [ingest, if_neg h1, if_pos h2]
    exact ⟨⟨fun _ => h2, fun _ => rfl⟩, fun _ => ⟨rfl, rfl, rfl⟩⟩
  · have hne : (ingest req cap).response ≠ HandlerResponse.clientError msgInvalidType := by
      by_cases h3 : cap.saveFileOk = false
      · rw [ingest, if_neg h1, if_neg h2, if_pos h3]
        decide
      · by_cases h4 : cap.statOk = false
        · rw [ingest, if_neg h1, if_neg h2, if_neg h3, if_pos h4]
          decide
        · by_cases h5 : cap.insertReceiptOk = false
          · rw [ingest, if_neg h1, if_neg h2, if_neg h3, if_neg h4, if_pos h5]
            decide
          · cases hid : cap.lastInsertId with
            | none =>
              rw [ingest, if_neg h1, if_neg h2, if_neg h3, if_neg h4, if_neg h5, hid]
              simp
            | some rid =>
              rw [ingest_eq_created req cap rid h1 h2 h3 h4 h5 hid, createdOutcome_response]
              simp
    exact ⟨⟨fun hx => absurd hx hne, fun hc => absurd hc h2⟩, fun hx => absurd hx hne⟩

/-- C3, witness: the amended statement evaluated on a `text/plain` upload,
which is rejected with no side effects. -/
theorem c3_witness :
    (ingest reqTextPlain capAllOk).response = HandlerResponse.clientError msgInvalidType ∧
    (ingest reqTextPlain capAllOk).fileStored = false ∧
    (ingest reqTextPlain capAllOk).receiptInserted = none ∧
    (ingest reqTextPlain capAllOk).transaction = none := by
  have h := c3_amended reqTextPlain capAllOk rfl
  have hr : (ingest reqTextPlain capAllOk).response = HandlerResponse.clientError msgInvalidType :=
    h.1.mpr (by decide)
  exact ⟨hr, (h.2 hr).1, (h.2 hr).2.1, (h.2 hr).2.2⟩

/-- C4, counterexample: the accepted empty-content-type upload is not a
PDF, yet its OCR stage status is `skipped`, so "skipped iff PDF" fails. -/
theorem c4_counterexample :
    (respBody (ingest reqEmptyCT capAllOk)).map (fun b => b.ocr.status) = some statusSkipped ∧
    reqEmptyCT.contentType ≠ pdfCT ∧
    (respBody (ingest reqEmptyCT capAllOk)).isSome = true :=
  ⟨by decide, by decide, by decide⟩

/-- C4, amended: on every 201 response the OCR stage is `skipped` exactly
when the content type is PDF or empty; a non-PDF, non-empty content type
whose bytes are unreadable or whose OCR call errors yields `failed`, and
the OCR engine is invoked exactly when the content type is neither PDF nor
empty. -/
theorem c4_amended (req : IngestRequest) (cap : Capabilities) (b : IngestResponse)
    (h : (ingest req cap).response = HandlerResponse.created b) :
    (b.ocr.status = statusSkipped ↔ (req.contentType = pdfCT ∨ req.contentType = [])) ∧
    ((¬(req.contentType = pdfCT ∨ req.contentType = []) ∧
      (cap.readFileOk = false ∨ cap.setImageOk = false ∨ cap.ocrText = none)) →
      b.ocr.status = statusFailed) ∧
    ((ingest req cap).ocrAttempted = true ↔ ¬(req.contentType = pdfCT ∨ req.contentType = [])) := by
  obtain ⟨rid, hid, heq⟩ := ingest_created_inv req cap b h
  rw [heq, createdOutcome_response] at h
  injection h with hb
  have hocr : b.ocr = ocrStage req.contentType cap := by rw [← hb]
  refine ⟨?_, ?_, ?_⟩
  · rw [hocr]
    exact ocrStage_skipped_iff req.contentType cap
  · intro hx
    rw [hocr]
    exact ocrStage_failed req.contentType cap hx.1 hx.2
  · rw [heq]
    rw [show (createdOutcome req cap rid).ocrAttempted =
          (if req.contentType = pdfCT ∨ req.contentType = [] then false else true) from rfl]
    by_cases hc : req.contentType = pdfCT ∨ req.contentType = []
    · simp [hc]
    · simp [hc]

/-- C4, witness: the amended statement evaluated on a PDF upload, whose
OCR stage is `skipped`. -/
theorem c4_witness :
    (ingest reqPdf capAllOk).response = HandlerResponse.created bodyPdf ∧
    bodyPdf.ocr.status = statusSkipped := by
  have h : (ingest reqPdf capAllOk).response = HandlerResponse.created bodyPdf := by decide
  exact ⟨h, (c4_amended reqPdf capAllOk bodyPdf h).1.mpr (Or.inl (by decide))⟩

/-- C5: when the run reaches the extraction stage with OCR success and the
capability succeeds but its cleaned text fails to unmarshal, the extraction
report keeps status `success` with the raw analysis text and the parse-error
string, no transaction row is inserted, the receipt stays `needs_review`,
and the request still returns the 201 body. -/
theorem c5_theorem (req : IngestRequest) (cap : Capabilities) (rid : Int) (t : GoStr)
    (g : GeminiResp)
    (hf : req.hasFile = true)
    (hallow : allowedTypes req.contentType = true)
    (hpdf : req.contentType ≠ pdfCT)
    (hsave : cap.saveFileOk = true) (hstat : cap.statOk = true)
    (hins : cap.insertReceiptOk = true) (hid : cap.lastInsertId = some rid)
    (hread : cap.readFileOk = true) (hset : cap.setImageOk = true)
    (hocr : cap.ocrText = some t) (htne : t ≠ [])
    (hcl : cap.geminiClientOk = true)
    (hg : cap.geminiResult = some g) (hgs : g.success = true)
    (hj : jsonUnmarshal (cleanText g.text) = none) :
    (respBody (ingest req cap)).map IngestResponse.gemini =
      some ⟨statusSuccess, g.text, msgParseFail, none⟩ ∧
    msgParseFail ≠ [] ∧
    (ingest req cap).transaction = none ∧
    (ingest req cap).receiptStatus = some stNeedsReview := by
  have hct_ne : req.contentType ≠ [] := by
    intro hx
    rw [hx] at hallow
    exact absurd hallow (by decide)
  have h1 : ¬req.hasFile = false := by simp [hf]
  have h2 : ¬(req.contentType ≠ [] ∧ allowedTypes req.contentType = false) := by
    intro hx
    rw [hallow] at hx
    exact Bool.noConfusion hx.2
  rw [ingest_eq_created req cap rid h1 h2 (by simp [hsave]) (by simp [hstat])
    (by simp [hins]) hid]
  have hno : ¬(req.contentType = pdfCT ∨ req.contentType = []) := by
    intro hx
    rcases hx with hx | hx
    · exact hpdf hx
    · exact hct_ne hx
  have hocrstage : ocrStage req.contentType cap = ⟨statusSuccess, t, []⟩ := by
    rw [ocrStage, if_neg hno, if_neg (by simp [hread]), if_neg (by simp [hset]), hocr]
  have hex : extractionStage (ocrStage req.contentType cap) cap =
      ⟨⟨statusSuccess, g.text, msgParseFail, none⟩, none, false⟩ := by
    rw [hocrstage]
    simp [extractionStage, htne, hcl, hg, hgs, hj]
  refine ⟨?_, by decide, ?_, ?_⟩
  · rw [show respBody (createdOutcome req cap rid) =
        some ⟨rid, cap.uuid, req.filename, storedName req cap, cap.fileSize, req.contentType,
          stNeedsReview, ocrStage req.contentType cap,
          (extractionStage (ocrStage req.contentType cap) cap).report⟩ from rfl]
    rw [hex]
    rfl
  · rw [show (createdOutcome req cap rid).transaction =
        (extractionStage (ocrStage req.contentType cap) cap).txInserted from rfl, hex]
  · rw [show (createdOutcome req cap rid).receiptStatus =
        some (if (extractionStage (ocrStage req.contentType cap) cap).statusUpdated = true
              then stProcessed else stNeedsReview) from rfl, hex]
    rfl

/-- C5, witness: the statement evaluated on a JPEG upload whose extraction
capability returns non-JSON text. -/
theorem c5_witness :
    (respBody (ingest reqJpeg capBadJson)).map IngestResponse.gemini =
      some ⟨statusSuccess, respBad.text, msgParseFail, none⟩ ∧
    (ingest reqJpeg capBadJson).transaction = none ∧
    (ingest reqJpeg capBadJson).receiptStatus = some stNeedsReview := by
  have h := c5_theorem reqJpeg capBadJson 1 ocrTextA respBad rfl (by decide) (by decide)
    rfl rfl rfl rfl rfl rfl rfl (by decide) rfl rfl rfl (by decide)
  exact ⟨h.1, h.2.2.1, h.2.2.2⟩

/-- C6, counterexample: when `Result.LastInsertId` fails the receipt row
already exists and the file is stored, yet the handler answers with the
500 error, not the 201 success. -/
theorem c6_counterexample :
    (ingest reqJpeg capIdFail).receiptInserted = some stNeedsReview ∧
    (ingest reqJpeg capIdFail).fileStored = true ∧
    (ingest reqJpeg capIdFail).response = HandlerResponse.serverError msgIdFail ∧
    respBody (ingest reqJpeg capIdFail) = none :=
  ⟨by decide, by decide, by decide, by decide⟩

/-- C6, amended: once the request passes validation, the file is stored,
the receipt row is inserted and its row id is obtained, the handler returns
the 201 body regardless of the OCR, extraction, parse and
transaction-insert outcomes. -/
theorem c6_amended (req : IngestRequest) (cap : Capabilities) (rid : Int)
    (hf : req.hasFile = true)
    (hv : req.contentType = [] ∨ allowedTypes req.contentType = true)
    (hsave : cap.saveFileOk = true) (hstat : cap.statOk = true)
    (hins : cap.insertReceiptOk = true) (hid : cap.lastInsertId = some rid) :
    (respBody (ingest req cap)).isSome = true ∧
    (ingest req cap).fileStored = true ∧
    (ingest req cap).receiptInserted = some stNeedsReview := by
  have h1 : ¬req.hasFile = false := by simp [hf]
  have h2 : ¬(req.contentType ≠ [] ∧ allowedTypes req.contentType = false) := by
    rcases hv with hv | hv
    · intro hx
      exact hx.1 hv
    · intro hx
      rw [hv] at hx
      exact Bool.noConfusion hx.2
  rw [ingest_eq_created req cap rid h1 h2 (by simp [hsave]) (by simp [hstat])
    (by simp [hins]) hid]
  exact ⟨rfl, rfl, rfl⟩

/-- C6, witness: the amended statement evaluated on a run whose OCR and
transaction insert both fail; the request still returns 201. -/
theorem c6_witness :
    (respBody (ingest reqJpeg capDownstreamFail)).isSome = true ∧
    (ingest reqJpeg capDownstreamFail).fileStored = true ∧
    (ingest reqJpeg capDownstreamFail).receiptInserted = some stNeedsReview :=
  c6_amended reqJpeg capDownstreamFail 1 rfl (Or.inr (by decide)) rfl rfl rfl rfl

/-- C7: whenever a run ends with a parsed extraction result and a persisted
transaction row, the row's amount is NULL exactly when the parsed amount is
at most zero and carries the literal value when strictly positive, and the
same holds for the confidence. -/
theorem c7_theorem (req : IngestRequest) (cap : Capabilities) (b : IngestResponse)
    (data : GeminiParsedData) (tx : TransactionRow)
    (h : (ingest req cap).response = HandlerResponse.created b)
    (hp : b.gemini.parsed = some data)
    (ht : (ingest req cap).transaction = some tx) :
    (tx.amount = none ↔ data.amount ≤ 0) ∧
    (0 < data.amount → tx.amount = some data.amount) ∧
    (tx.confidence = none ↔ data.confidence ≤ 0) ∧
    (0 < data.confidence → tx.confidence = some data.confidence) := by
  obtain ⟨rid, hid, heq⟩ := ingest_created_inv req cap b h
  rw [heq, createdOutcome_response] at h
  injection h with hb
  rw [← hb] at hp
  have hp2 : (extractionStage (ocrStage req.contentType cap) cap).report.parsed = some data := hp
  rw [heq] at ht
  have ht2 : (extractionStage (ocrStage req.contentType cap) cap).txInserted = some tx := ht
  have htx := extraction_parsed_tx (ocrStage req.contentType cap) cap data tx hp2 ht2
  subst htx
  refine ⟨?_, ?_, ?_, ?_⟩
  · by_cases hpos : 0 < data.amount
    · simp [mkTransaction, hpos, not_le.mpr hpos]
    · simp [mkTransaction, hpos, not_lt.mp hpos]
  · intro hpos
    simp [mkTransaction, hpos]
  · by_cases hpos : 0 < data.confidence
    · simp [mkTransaction, hpos, not_le.mpr hpos]
    · simp [mkTransaction, hpos, not_lt.mp hpos]
  · intro hpos
    simp [mkTransaction, hpos]

/-- C7, witness: the statement evaluated on a run whose extraction returns
amount `-3` and confidence `0.9`: the stored amount is NULL and the stored
confidence is the literal parsed value. -/
theorem c7_witness :
    txNeg.amount = none ∧ txNeg.confidence = some dataNeg.confidence := by
  have h := c7_theorem reqJpeg capNegAmount bodyNeg dataNeg txNeg
    (by decide) (by decide) (by decide)
  exact ⟨h.1.mpr (by decide), h.2.2.2 (by decide)⟩

/-- C8, counterexample: for a capability output that is itself already
fenced, stripping-then-parsing the unwrapped text succeeds while
stripping-then-parsing the wrapped text fails, so the parse outcomes
differ. -/
theorem c8_counterexample :
    (jsonUnmarshal (cleanText fencedJsonText)).isSome = true ∧
    jsonUnmarshal (cleanText (wrapJson fencedJsonText)) = none ∧
    jsonUnmarshal (cleanText (wrapJson fencedJsonText)) ≠
      jsonUnmarshal (cleanText fencedJsonText) :=
  ⟨by decide, by decide, by decide⟩

/-- C8, amended: for every output whose trimmed form neither starts nor
ends with a code fence, stripping the `json`-tagged or bare-fence wrapped
text and parsing yields exactly the outcome of stripping and parsing the
unwrapped text (the stripped strings themselves coincide). -/
theorem c8_amended (s : GoStr)
    (h1 : isPre fence (trimSpace s) = false)
    (h2 : endsWith fence (trimSpace s) = false) :
    jsonUnmarshal (cleanText (wrapJson s)) = jsonUnmarshal (cleanText s) ∧
    jsonUnmarshal (cleanText (wrapBare s)) = jsonUnmarshal (cleanText s) ∧
    cleanText (wrapJson s) = cleanText s ∧
    cleanText (wrapBare s) = cleanText s := by
  have hA := cleanText_wrapJson s
  have hB := cleanText_wrapBare s
  have hC := cleanText_nofence s h1 h2
  exact ⟨by rw [hA, hC], by rw [hB, hC], by rw [hA, hC], by rw [hB, hC]⟩

/-- C8, witness: the amended statement evaluated on a plain JSON object
string. -/
theorem c8_witness :
    jsonUnmarshal (cleanText (wrapJson plainJsonText)) =
      jsonUnmarshal (cleanText plainJsonText) ∧
    jsonUnmarshal (cleanText (wrapBare plainJsonText)) =
      jsonUnmarshal (cleanText plainJsonText) := by
  have h := c8_amended plainJsonText (by decide) (by decide)
  exact ⟨h.1, h.2.1⟩

/-- C9, counterexample: when `os.Stat` fails after a successful save, the
file is stored but the request aborts without inserting any receipt row,
so "a receipt row is inserted immediately after the file is successfully
stored" fails as stated. -/
theorem c9_counterexample :
    (ingest reqJpeg capStatFail).fileStored = true ∧
    (ingest reqJpeg capStatFail).receiptInserted = none ∧
    (ingest reqJpeg capStatFail).response = HandlerResponse.serverError msgStatFail :=
  ⟨by decide, by decide, by decide⟩

/-- C9, amended: once the request is accepted, the file saved and its file
info read, a receipt row with initial state `needs_review` is inserted
before any OCR or extraction work; if that insert fails the request aborts
with the 500 error, no OCR or extraction is attempted, no transaction
exists, and the already-stored file persists. -/
theorem c9_amended (req : IngestRequest) (cap : Capabilities)
    (hf : req.hasFile = true)
    (hv : req.contentType = [] ∨ allowedTypes req.contentType = true)
    (hsave : cap.saveFileOk = true) (hstat : cap.statOk = true) :
    (cap.insertReceiptOk = true →
      (ingest req cap).receiptInserted = some stNeedsReview ∧
      (ingest req cap).fileStored = true) ∧
    (cap.insertReceiptOk = false →
      (ingest req cap).response = HandlerResponse.serverError msgInsertFail ∧
      (ingest req cap).fileStored = true ∧
      (ingest req cap).receiptInserted = none ∧
      (ingest req cap).transaction = none ∧
      (ingest req cap).ocrAttempted = false ∧
      (ingest req cap).extractionAttempted = false) := by
  have h1 : ¬req.hasFile = false := by simp [hf]
  have h2 : ¬(req.contentType ≠ [] ∧ allowedTypes req.contentType = false) := by
    rcases hv with hv | hv
    · intro hx
      exact hx.1 hv
    · intro hx
      rw [hv] at hx
      exact Bool.noConfusion hx.2
  constructor
  · intro hins
    cases hid : cap.lastInsertId with
    | none =>
      rw [ingest, if_neg h1, if_neg h2, if_neg (by simp [hsave]), if_neg (by simp [hstat]),
        if_neg (by simp [hins]), hid]
      exact ⟨rfl, rfl⟩
    | some rid =>
      rw [ingest_eq_created req cap rid h1 h2 (by simp [hsave]) (by simp [hstat])
        (by simp [hins]) hid]
      exact ⟨rfl, rfl⟩
  · intro hins
    rw [ingest, if_neg h1, if_neg h2, if_neg (by simp [hsave]), if_neg (by simp [hstat]),
      if_pos hins]
    exact ⟨rfl, rfl, rfl, rfl, rfl, rfl⟩

/-- C9, witness: the amended statement evaluated on a run whose receipt
insert fails. -/
theorem c9_witness :
    (ingest reqJpeg capInsertFail).response = HandlerResponse.serverError msgInsertFail ∧
    (ingest reqJpeg capInsertFail).fileStored = true ∧
    (ingest reqJpeg capInsertFail).receiptInserted = none ∧
    (ingest reqJpeg capInsertFail).ocrAttempted = false ∧
    (ingest reqJpeg capInsertFail).extractionAttempted = false := by
  have h := (c9_amended reqJpeg capInsertFail rfl (Or.inr (by decide)) rfl rfl).2 rfl
  exact ⟨h.1, h.2.1, h.2.2.1, h.2.2.2.2.1, h.2.2.2.2.2⟩
